import Mathlib

/-!
Shallow embedding of the scoped-heed library (Redis-style scope partitioning
over an ordered byte-keyed KV store).

Modelling conventions:
* Rust byte strings (`&[u8]`, `Vec<u8>`) are `List Nat` with entries below 256
  where that matters; Rust `String` values (scope names, error messages) are
  modelled by their UTF-8 byte sequences, also as `List Nat`.
* The underlying engine (LMDB via heed) sorts raw keys by lexicographic byte
  comparison (memcmp, a strict prefix sorts first).  A sub-database is a list
  of (key, value) entries; `put` replaces any entry with byte-equal key, and
  `range` filters entries whose encoded key lies between the encoded bounds,
  exactly as heed encodes the bound keys with the database codec and lets
  LMDB compare the raw bytes.
* The scoped sub-databases only ever hold keys produced by
  `ScopedBytesCodec.encode` (for `ScopedDatabase<K,V>` instantiated at byte
  keys, the bincode encoding of `ScopedKey<K>` is the identical byte layout:
  4-byte little-endian hash, 8-byte little-endian length, key bytes; the
  repository test `test_encoding_compatibility` asserts this).  We therefore
  store entries as ((scope_hash, user_key), value) and compare via the
  encoding.
* Machine integers are `Nat` with explicit reductions modulo 2^32 / 2^64
  where Rust overflow semantics matter.
-/

abbrev Bytes := List Nat

/-- memcmp-style comparison of two byte strings: pointwise, a strict prefix
sorts first.  This is the LMDB default key order. -/
def byteCmp : Bytes → Bytes → Ordering
  | [], [] => .eq
  | [], _ :: _ => .lt
  | _ :: _, [] => .gt
  | a :: as, b :: bs => if a < b then .lt else if b < a then .gt else byteCmp as bs

def ltB (a b : Bytes) : Bool := byteCmp a b == .lt

def leB (a b : Bytes) : Bool := !(byteCmp a b == .gt)

/-- Little-endian interpretation of a byte list (least significant first). -/
def leNat : Bytes → Nat
  | [] => 0
  | b :: bs => b + 256 * leNat bs

/-- The four bytes of `u32::to_le_bytes` (the value is reduced mod 2^32). -/
def u32le (n : Nat) : Bytes :=
  [n % 256, n / 256 % 256, n / 65536 % 256, n / 16777216 % 256]

/-- The eight bytes of `u64::to_le_bytes` (the value is reduced mod 2^64). -/
def u64le (n : Nat) : Bytes :=
  [n % 256, n / 256 % 256, n / 65536 % 256, n / 16777216 % 256,
   n / 4294967296 % 256, n / 1099511627776 % 256,
   n / 281474976710656 % 256, n / 72057594037927936 % 256]

def U32MOD : Nat := 4294967296

def U64MOD : Nat := 18446744073709551616

def U32MAX : Nat := 4294967295

/-- ASCII text as bytes (used for the fixed message and name literals, which
are all ASCII, so this coincides with UTF-8). -/
def ascii (s : String) : Bytes := s.data.map Char.toNat

/-- Error type of the library (src/lib.rs `ScopedDbError`).  Engine errors are
out of scope, so the `Heed` variant carries no payload here. -/
inductive ScopedDbError where
  | heed : ScopedDbError
  | emptyScopeDisallowed : ScopedDbError
  | invalidInput : Bytes → ScopedDbError
  | encoding : Bytes → ScopedDbError
  deriving Repr, DecidableEq

/-! ## xxHash32

`Scope::named` derives the 32-bit scope id by hashing the UTF-8 name bytes
with xxHash32 at fixed seed 0 (src/scope.rs `compute_xxhash`).  The hash
implementation itself lives in the external `twox_hash` crate; the function
below is the standard XXH32 algorithm, transcribed so that the model is
executable.  All arithmetic is modulo 2^32. -/

def XXP1 : Nat := 2654435761
def XXP2 : Nat := 2246822519
def XXP3 : Nat := 3266489917
def XXP4 : Nat := 668265263
def XXP5 : Nat := 374761393

def rotl32 (x r : Nat) : Nat := ((x <<< r) % U32MOD) ||| ((x % U32MOD) >>> (32 - r))

def xxRound (acc lane : Nat) : Nat :=
  rotl32 ((acc + lane * XXP2) % U32MOD) 13 * XXP1 % U32MOD

/-- Consume 16-byte stripes while at least 16 bytes remain, updating the four
accumulators; returns the accumulators and the remaining bytes. -/
def xxStripes (bs : Bytes) (v : Nat × Nat × Nat × Nat) :
    (Nat × Nat × Nat × Nat) × Bytes :=
  if _h : 16 ≤ bs.length then
    let l1 := leNat (bs.take 4)
    let l2 := leNat ((bs.drop 4).take 4)
    let l3 := leNat ((bs.drop 8).take 4)
    let l4 := leNat ((bs.drop 12).take 4)
    xxStripes (bs.drop 16)
      (xxRound v.1 l1, xxRound v.2.1 l2, xxRound v.2.2.1 l3, xxRound v.2.2.2 l4)
  else (v, bs)
  termination_by bs.length
  decreasing_by simp [List.length_drop]; omega

def xxChunk (acc lane : Nat) : Nat :=
  rotl32 ((acc + lane * XXP3) % U32MOD) 17 * XXP4 % U32MOD

/-- Consume 4-byte chunks while at least 4 bytes remain. -/
def xxChunks (bs : Bytes) (acc : Nat) : Nat × Bytes :=
  if _h : 4 ≤ bs.length then
    xxChunks (bs.drop 4) (xxChunk acc (leNat (bs.take 4)))
  else (acc, bs)
  termination_by bs.length
  decreasing_by simp [List.length_drop]; omega

def xxTail (acc b : Nat) : Nat :=
  rotl32 ((acc + b % 256 * XXP5) % U32MOD) 11 * XXP1 % U32MOD

def xxAvalanche (acc : Nat) : Nat :=
  let a := acc % U32MOD
  let a := a ^^^ (a >>> 15)
  let a := a * XXP2 % U32MOD
  let a := a ^^^ (a >>> 13)
  let a := a * XXP3 % U32MOD
  a ^^^ (a >>> 16)

def xxh32 (seed : Nat) (data : Bytes) : Nat :=
  let len := data.length
  let (acc0, rest) :=
    if 16 ≤ len then
      let v1 := (seed + XXP1 + XXP2) % U32MOD
      let v2 := (seed + XXP2) % U32MOD
      let v3 := seed % U32MOD
      let v4 := (seed + U32MOD - XXP1 % U32MOD) % U32MOD
      let (v, rest) := xxStripes data (v1, v2, v3, v4)
      ((rotl32 v.1 1 + rotl32 v.2.1 7 + rotl32 v.2.2.1 12 + rotl32 v.2.2.2 18) % U32MOD,
        rest)
    else ((seed + XXP5) % U32MOD, data)
  let acc1 := (acc0 + len) % U32MOD
  let (acc2, rest2) := xxChunks rest acc1
  let acc3 := rest2.foldl xxTail acc2
  xxAvalanche acc3

/-- src/scope.rs `compute_xxhash`: xxHash32 of the bytes with fixed seed 0. -/
def compute_xxhash (data : Bytes) : Nat := xxh32 0 data

/-! ## Scope -/

/-- src/scope.rs `Scope`: the default (unscoped) database or a named scope
with a cached 32-bit hash. -/
inductive Scope where
  | dflt : Scope
  | named : Bytes → Nat → Scope
  deriving Repr, DecidableEq

/-- The derived `PartialEq` of the Rust enum: variants must match and, for
`Named`, ALL fields (name and cached hash) must be equal. -/
def Scope.eqb : Scope → Scope → Bool
  | .dflt, .dflt => true
  | .named n₁ h₁, .named n₂ h₂ => n₁ == n₂ && h₁ == h₂
  | _, _ => false

def Scope.isDefault : Scope → Bool
  | .dflt => true
  | .named _ _ => false

/-- src/scope.rs `Scope::named`: empty names are rejected, otherwise the
xxHash32 of the name bytes is cached in the value. -/
def Scope.mkNamed (name : Bytes) : Except ScopedDbError Scope :=
  if name.isEmpty then .error .emptyScopeDisallowed
  else .ok (.named name (compute_xxhash name))

/-- src/scope.rs `impl From<&str> for Scope`: the empty string maps to the
default scope, anything else goes through `Scope::named` (whose error branch
is unreachable for non-empty input and falls back to the default scope). -/
def scopeFromStr (name : Bytes) : Scope :=
  if name.isEmpty then .dflt
  else
    match Scope.mkNamed name with
    | .ok s => s
    | .error _ => .dflt

example : Scope.mkNamed [] = .error .emptyScopeDisallowed := rfl

example : scopeFromStr [] = .dflt := rfl

/-! ## Composite-key codec (src/utils.rs `ScopedBytesCodec`) -/

def msgTooShort : Bytes := ascii "Not enough bytes to decode scoped key"

def msgKeyShort : Bytes := ascii "Not enough bytes for key"

namespace ScopedBytesCodec

/-- src/utils.rs `ScopedBytesCodec::encode`: 4-byte little-endian scope hash,
8-byte little-endian key length, then the key bytes. -/
def encode (scope_hash : Nat) (key : Bytes) : Bytes :=
  u32le scope_hash ++ u64le key.length ++ key

/-- Outcome of `ScopedBytesCodec::decode`.  Besides the `Result` of the Rust
signature, the Rust body can abort: for declared lengths at the top of the
u64 range, the addition of 12 and the declared length overflows usize (an
abort in debug builds; in release builds it wraps and the slice from index
12 to an end below 12 aborts).  `fault` records that abort. -/
inductive DecodeOutcome where
  | ok : Nat → Bytes → DecodeOutcome
  | err : ScopedDbError → DecodeOutcome
  | fault : DecodeOutcome
  deriving Repr, DecidableEq

/-- src/utils.rs `ScopedBytesCodec::decode`, with release-build (wrapping)
semantics for the usize addition of 12 and the declared key length. -/
def decode (bytes : Bytes) : DecodeOutcome :=
  if bytes.length < 12 then .err (.encoding msgTooShort)
  else
    let scope_hash := leNat (bytes.take 4)
    let key_len := leNat ((bytes.drop 4).take 8)
    let key_end := (12 + key_len) % U64MOD
    if bytes.length < key_end then .err (.encoding msgKeyShort)
    else if key_end < 12 then .fault
    else .ok scope_hash ((bytes.drop 12).take (key_end - 12))

end ScopedBytesCodec

/-! ## Global scope registry (src/global_registry.rs) -/

/-- The global metadata sub-database: id → UTF-8 name.  Keys are u32 values;
nothing in the modelled operations depends on their storage order, so an
association list suffices. -/
abbrev Registry := List (Nat × Bytes)

def regGet (r : Registry) (h : Nat) : Option Bytes :=
  (r.find? (fun e => e.1 == h)).map (·.2)

/-- LMDB put: insert or replace the entry for the key. -/
def regPut (r : Registry) (h : Nat) (n : Bytes) : Registry :=
  (h, n) :: r.filter (fun e => !(e.1 == h))

def regDelete (r : Registry) (h : Nat) : Registry :=
  r.filter (fun e => !(e.1 == h))

/-- The exact collision message of `GlobalScopeRegistry::register_scope`
("Hash collision detected between NAME and EXISTING" with each name wrapped
in single-quote bytes, byte 39). -/
def collisionMsg (name existing : Bytes) : Bytes :=
  ascii "Hash collision detected between " ++ [39] ++ name ++ [39, 32, 97, 110, 100, 32, 39]
    ++ existing ++ [39]

/-- src/global_registry.rs `GlobalScopeRegistry::register_scope`. -/
def registerScope (r : Registry) (s : Scope) : Except ScopedDbError Registry :=
  match s with
  | .dflt => .ok r
  | .named name hash =>
    match regGet r hash with
    | some existing =>
      if existing ≠ name then .error (.invalidInput (collisionMsg name existing))
      else .ok r
    | none => .ok (regPut r hash name)

/-- src/global_registry.rs `GlobalScopeRegistry::scope_exists`. -/
def scopeExists (r : Registry) (s : Scope) : Bool :=
  match s with
  | .dflt => true
  | .named _ hash => (regGet r hash).isSome

/-- src/global_registry.rs `GlobalScopeRegistry::list_all_scopes`: the default
scope followed by every stored (hash, name) pair. -/
def listAllScopes (r : Registry) : List Scope :=
  .dflt :: r.map (fun e => .named e.2 e.1)

/-- src/global_registry.rs `GlobalScopeRegistry::unregister_scope`: delete the
id if present, succeed either way. -/
def unregisterScope (r : Registry) (h : Nat) : Registry :=
  if (regGet r h).isSome then regDelete r h else r

/-- src/global_registry.rs `GlobalScopeRegistry::prune_globally_unused_scopes`.
An emptiness checker (method is_scope_empty_in_db of a database) is a
function from scopes to `Bool` (`true` = empty in that database; checkers
read the data sub-databases, which prune does not touch, so they are pure
here).  Returns the registry after pruning and the number pruned. -/
def pruneGloballyUnusedScopes (r : Registry) (databases : List (Scope → Bool)) :
    Registry × Nat :=
  if databases.isEmpty then (r, 0)
  else
    let scopes := (listAllScopes r).filter (fun s => !s.isDefault)
    scopes.foldl
      (fun acc s =>
        if databases.all (fun db => db s) then
          match s with
          | .named _ hash => (unregisterScope acc.1 hash, acc.2 + 1)
          | .dflt => acc
        else acc)
      (r, 0)

/-! ## Sub-database model

A sub-database is a list of (key, value) entries; LMDB compares raw key
bytes.  The scoped sub-databases hold only keys written through
`ScopedBytesCodec.encode` (see the header comment), so their entries are
kept decoded as ((scope_hash, user_key), value) and all key comparisons go
through the encoding, exactly as heed encodes bound keys with the codec and
LMDB compares the resulting bytes. -/

/-- Default sub-database: raw user keys. -/
abbrev DDB := List (Bytes × Bytes)

/-- Scoped sub-database: ((scope_hash, user_key), value). -/
abbrev SDB := List ((Nat × Bytes) × Bytes)

/-- The raw bytes LMDB stores and compares for a scoped entry key. -/
def keyBytes (k : Nat × Bytes) : Bytes := ScopedBytesCodec.encode k.1 k.2

def ddbGet (d : DDB) (k : Bytes) : Option Bytes :=
  (d.find? (fun e => e.1 == k)).map (·.2)

def ddbPut (d : DDB) (k v : Bytes) : DDB :=
  (k, v) :: d.filter (fun e => !(e.1 == k))

def sdbGet (d : SDB) (k : Nat × Bytes) : Option Bytes :=
  (d.find? (fun e => keyBytes e.1 == keyBytes k)).map (·.2)

def sdbPut (d : SDB) (k : Nat × Bytes) (v : Bytes) : SDB :=
  (k, v) :: d.filter (fun e => !(keyBytes e.1 == keyBytes k))

/-- A range bound over composite keys (`std::ops::Bound`). -/
inductive Bnd where
  | incl : Nat × Bytes → Bnd
  | excl : Nat × Bytes → Bnd
  | unb : Bnd

/-- A range bound over user keys, as supplied by the caller of `range`. -/
inductive UBnd where
  | incl : Bytes → UBnd
  | excl : Bytes → UBnd
  | unb : UBnd

def satLo : Bnd → Bytes → Bool
  | .incl k, x => leB (keyBytes k) x
  | .excl k, x => ltB (keyBytes k) x
  | .unb, _ => true

def satHi : Bnd → Bytes → Bool
  | .incl k, x => leB x (keyBytes k)
  | .excl k, x => ltB x (keyBytes k)
  | .unb, _ => true

/-- The entries of a scoped sub-database whose encoded key lies inside the
bounds: what a heed `range` cursor visits. -/
def sdbRange (d : SDB) (lo hi : Bnd) : SDB :=
  d.filter (fun e => satLo lo (keyBytes e.1) && satHi hi (keyBytes e.1))

/-- LMDB delete of every entry inside the bounds (heed `delete_range`, and
likewise the cursor walk of `range_mut` + `del_current` which deletes every
visited entry). -/
def sdbDeleteRange (d : SDB) (lo hi : Bnd) : SDB :=
  d.filter (fun e => !(satLo lo (keyBytes e.1) && satHi hi (keyBytes e.1)))

def satLoU : UBnd → Bytes → Bool
  | .incl k, x => leB k x
  | .excl k, x => ltB k x
  | .unb, _ => true

def satHiU : UBnd → Bytes → Bool
  | .incl k, x => leB x k
  | .excl k, x => ltB x k
  | .unb, _ => true

def ddbRange (d : DDB) (lo hi : UBnd) : DDB :=
  d.filter (fun e => satLoU lo e.1 && satHiU hi e.1)

/-- State of one container: default sub-database plus scoped sub-database.
`ScopedBytesDatabase` and (at byte keys and values) `ScopedDatabase<K,V>`
share this shape; their operations differ and are modelled separately. -/
structure Container where
  dflt : DDB
  sdb : SDB
  deriving Repr, DecidableEq

/-! ## ScopedBytesDatabase (src/scoped_bytes_database.rs) -/

namespace ScopedBytesDatabase

/-- Rust `ScopedBytesDatabase::put` (lines 179-200): default scope writes to the
default sub-database; a named scope is first registered, then the entry is
written under the composite key. -/
def put (reg : Registry) (db : Container) (s : Scope) (key value : Bytes) :
    Except ScopedDbError (Registry × Container) :=
  match s with
  | .dflt => .ok (reg, { db with dflt := ddbPut db.dflt key value })
  | .named _ hash => do
    let reg' ← registerScope reg s
    .ok (reg', { db with sdb := sdbPut db.sdb (hash, key) value })

/-- Rust `ScopedBytesDatabase::get` (lines 237-250). -/
def get (db : Container) (s : Scope) (key : Bytes) : Option Bytes :=
  match s with
  | .dflt => ddbGet db.dflt key
  | .named _ hash => sdbGet db.sdb (hash, key)

/-- Rust `ScopedBytesDatabase::clear` (lines 374-409): default delegates to the
engine clear; a named scope is registered, then `delete_range` removes the
composite range from (hash, empty key) inclusive up to, for hash u32::MAX,
(hash, [0xFF]) inclusive, and otherwise (hash+1, empty key) exclusive. -/
def clear (reg : Registry) (db : Container) (s : Scope) :
    Except ScopedDbError (Registry × Container) :=
  match s with
  | .dflt => .ok (reg, { db with dflt := [] })
  | .named _ hash => do
    let reg' ← registerScope reg s
    let start_bound := Bnd.incl (hash, [])
    let end_bound := if hash == U32MAX then Bnd.incl (hash, [255]) else Bnd.excl (hash + 1, [])
    .ok (reg', { db with sdb := sdbDeleteRange db.sdb start_bound end_bound })

/-- Rust `ScopedBytesDatabase::iter` (lines 444-471): default iterates the default
sub-database; a named scope iterates the whole scoped sub-database and keeps
exactly the entries whose stored hash equals the requested one. -/
def iter (db : Container) (s : Scope) : List (Bytes × Bytes) :=
  match s with
  | .dflt => db.dflt
  | .named _ hash =>
    db.sdb.filterMap (fun e =>
      if e.1.1 == hash then some (e.1.2, e.2) else none)

/-- Rust `ScopedBytesDatabase::range` (lines 511-572): user bounds are mapped to
composite bounds with the scope hash attached (unbounded low becomes
(hash, empty) inclusive; unbounded high becomes (hash, [0xFF]) inclusive for
hash u32::MAX and (hash+1, empty) exclusive otherwise), and every entry the
cursor yields is returned with the stored hash dropped — there is no
per-item hash check on this path. -/
def range (db : Container) (s : Scope) (lo hi : UBnd) : List (Bytes × Bytes) :=
  match s with
  | .dflt => ddbRange db.dflt lo hi
  | .named _ hash =>
    let transformed_start :=
      match lo with
      | .incl k => Bnd.incl (hash, k)
      | .excl k => Bnd.excl (hash, k)
      | .unb => Bnd.incl (hash, [])
    let transformed_end :=
      match hi with
      | .incl k => Bnd.incl (hash, k)
      | .excl k => Bnd.excl (hash, k)
      | .unb => if hash == U32MAX then Bnd.incl (hash, [255]) else Bnd.excl (hash + 1, [])
    (sdbRange db.sdb transformed_start transformed_end).map (fun e => (e.1.2, e.2))

/-- Rust `ScopedBytesDatabase::is_scope_empty` (lines 113-131): default checks the
default sub-database for a first entry; a named scope scans the whole scoped
sub-database for an entry with the matching hash. -/
def isScopeEmpty (db : Container) (s : Scope) : Bool :=
  match s with
  | .dflt => db.dflt.isEmpty
  | .named _ hash => !(db.sdb.any (fun e => e.1.1 == hash))

end ScopedBytesDatabase

/-! ## ScopedDatabase<K, V> (src/scoped_database.rs)

Modelled at K = byte strings, V = byte strings, where the bincode encoding
of `ScopedKey<K>` is byte-for-byte `ScopedBytesCodec.encode` and
`K::default()` is the empty byte string. -/

namespace ScopedDatabase

/-- Rust `ScopedDatabase::put` (lines 178-204). -/
def put (reg : Registry) (db : Container) (s : Scope) (key value : Bytes) :
    Except ScopedDbError (Registry × Container) :=
  match s with
  | .dflt => .ok (reg, { db with dflt := ddbPut db.dflt key value })
  | .named _ hash => do
    let reg' ← registerScope reg s
    .ok (reg', { db with sdb := sdbPut db.sdb (hash, key) value })

/-- Rust `ScopedDatabase::get` (lines 250-269). -/
def get (db : Container) (s : Scope) (key : Bytes) : Option Bytes :=
  match s with
  | .dflt => ddbGet db.dflt key
  | .named _ hash => sdbGet db.sdb (hash, key)

/-- Rust `ScopedDatabase::clear` (lines 409-472): a named scope is registered,
then a cursor walks the range from (hash, K::default()) inclusive to
(hash, K::default()) exclusive for hash u32::MAX and (hash+1, K::default())
exclusive otherwise, deleting every visited entry (no hash check). -/
def clear (reg : Registry) (db : Container) (s : Scope) :
    Except ScopedDbError (Registry × Container) :=
  match s with
  | .dflt => .ok (reg, { db with dflt := [] })
  | .named _ hash => do
    let reg' ← registerScope reg s
    let min_key_start := Bnd.incl (hash, [])
    let min_key_end := if hash == U32MAX then (hash, ([] : Bytes)) else (hash + 1, ([] : Bytes))
    .ok (reg', { db with sdb := sdbDeleteRange db.sdb min_key_start (Bnd.excl min_key_end) })

/-- Rust `ScopedDatabase::iter` (lines 609-667): a named scope ranges from
(hash, K::default()) inclusive to (hash, K::default()) INCLUSIVE for hash
u32::MAX and (hash+1, K::default()) exclusive otherwise, then keeps only
entries whose stored hash equals the requested one. -/
def iter (db : Container) (s : Scope) : List (Bytes × Bytes) :=
  match s with
  | .dflt => db.dflt
  | .named _ hash =>
    let start_key := Bnd.incl (hash, [])
    let end_bound := if hash == U32MAX then Bnd.incl (hash, []) else Bnd.excl (hash + 1, [])
    (sdbRange db.sdb start_key end_bound).filterMap (fun e =>
      if e.1.1 == hash then some (e.1.2, e.2) else none)

/-- Rust `ScopedDatabase::is_scope_empty` (lines 510-558): same range as `iter`;
the scope is empty when the range holds no entry with the matching hash. -/
def isScopeEmpty (db : Container) (s : Scope) : Bool :=
  match s with
  | .dflt => db.dflt.isEmpty
  | .named _ hash =>
    let start_key := Bnd.incl (hash, [])
    let end_bound := if hash == U32MAX then Bnd.incl (hash, []) else Bnd.excl (hash + 1, [])
    !((sdbRange db.sdb start_key end_bound).any (fun e => e.1.1 == hash))

end ScopedDatabase

/-! ## Helper lemmas -/

theorem leNat_u32le {n : Nat} (h : n < U32MOD) : leNat (u32le n) = n := by
  simp only [u32le, leNat, U32MOD] at *
  omega

theorem leNat_u64le {n : Nat} (h : n < U64MOD) : leNat (u64le n) = n := by
  simp only [u64le, leNat, U64MOD] at *
  omega

theorem encode_length (hsh : Nat) (key : Bytes) :
    (ScopedBytesCodec.encode hsh key).length = 12 + key.length := by
  simp [ScopedBytesCodec.encode, u32le, u64le]
  omega

theorem regGet_regPut_self (r : Registry) (h : Nat) (n : Bytes) :
    regGet (regPut r h n) h = some n := by
  simp [regGet, regPut, List.find?]

theorem find_filter_ne (r : Registry) (h id : Nat) (hne : id ≠ h) :
    (r.filter (fun e => !(e.1 == h))).find? (fun e => e.1 == id)
      = r.find? (fun e => e.1 == id) := by
  induction r with
  | nil => rfl
  | cons e r ih =>
    by_cases he : e.1 = h
    · have h2 : (h == id) = false := by simp; omega
      simp [List.filter_cons, List.find?, he, h2, ih]
    · have h1 : (e.1 == h) = false := by simp [he]
      by_cases hei : e.1 = id
      · have hih : (id == h) = false := by simp; omega
        simp [List.filter_cons, List.find?, he, hei, hih]
      · have h2 : (e.1 == id) = false := by simp [hei]
        simp [List.filter_cons, List.find?, h1, h2, ih]

theorem regGet_regPut_ne (r : Registry) (h : Nat) (n : Bytes) (id : Nat) (hne : id ≠ h) :
    regGet (regPut r h n) id = regGet r id := by
  have hh : (h == id) = false := by simp; omega
  simp [regGet, regPut, List.find?, hh, find_filter_ne r h id hne]

/-! ## Claim theorems -/

/-- C1: the claim says that after `clear` succeeds on a Named scope S
(including id 2^32-1), `get` on S returns none for every key previously in
S, and every pair stored in any other scope is unchanged.  The code violates
both parts: with entries ((2^32-1, [0,0]), [7]) and ((256, [5]), [9]) in the
scoped store, `ScopedBytesDatabase::clear` of scope id 2^32-1 succeeds yet
deletes nothing — its upper bound (id, [0xFF]) sorts below every composite
key with a user key of length at least 2, so `get` still returns the value —
and `clear` of scope id 0 deletes the entry of scope id 256, whose
little-endian id bytes [0,1,0,0] fall inside the range up to id 1 bytes
[1,0,0,0]. -/
theorem C1_clear_bug :
    (ScopedBytesDatabase.clear [] ⟨[], [((U32MAX, [0, 0]), [7]), ((256, [5]), [9])]⟩
        (.named [109] U32MAX)
      = .ok ([(U32MAX, [109])], ⟨[], [((U32MAX, [0, 0]), [7]), ((256, [5]), [9])]⟩)
     ∧ ScopedBytesDatabase.get ⟨[], [((U32MAX, [0, 0]), [7]), ((256, [5]), [9])]⟩
        (.named [109] U32MAX) [0, 0] = some [7])
    ∧ ScopedBytesDatabase.clear [] ⟨[], [((U32MAX, [0, 0]), [7]), ((256, [5]), [9])]⟩
        (.named [110] 0)
      = .ok ([(0, [110])], ⟨[], [((U32MAX, [0, 0]), [7])]⟩) :=
  ⟨⟨rfl, rfl⟩, rfl⟩

/-- C2: the claim says every item yielded by `range` has a stored scope id
equal to the requested scope, and items of other scopes are never yielded,
in particular under unbounded-high bounds and ids whose little-endian bytes
order differently from their numeric order.  The code violates this: the
only stored entry belongs to scope id 256, yet `ScopedBytesDatabase::range`
over scope id 0 with fully unbounded bounds yields it, because the entry key
bytes [0,1,0,0,...] lie between the encoded bounds for ids 0 and 1 and the
named-scope branch of `range` performs no per-item prefix check. -/
theorem C2_range_bug :
    ScopedBytesDatabase.range ⟨[], [((256, []), [9])]⟩ (.named [97] 0) .unb .unb
      = [([], [9])]
    ∧ ∀ e ∈ ([((256, []), [9])] : SDB), e.1.1 ≠ 0 :=
  ⟨rfl, by decide⟩

/-- C3: the claim says a Named scope that still holds data in some supplied
container is never unregistered by `prune_globally_unused_scopes`, for every
scope id including ids whose little-endian bytes order differently from their
numeric order.  The code violates this: the container holds the entry
((255, [120]), [1]), but `ScopedDatabase::is_scope_empty` for id 255 scans
the composite range from id 255 up to id 256, which is empty under
lexicographic order of little-endian ids ([255,0,0,0] sorts above
[0,1,0,0]), so the scope is reported empty; prune therefore unregisters the
scope that still holds data and returns 1. -/
theorem C3_prune_bug :
    ScopedDatabase.isScopeEmpty ⟨[], [((255, [120]), [1])]⟩ (.named [116] 255) = true
    ∧ pruneGloballyUnusedScopes [(255, [116])]
        [fun s => ScopedDatabase.isScopeEmpty ⟨[], [((255, [120]), [1])]⟩ s]
      = ([], 1) :=
  ⟨rfl, rfl⟩

/-- C7: the claim says that after put(A,k,v_a) and put(B,k,v_b) with A ≠ B,
get returns the respective values and iter over A yields (k,v_a).  The gets
do hold, but the code violates the iter clause: with A = Named scope id 255
and B = Default, k = [107], v_a = [97], v_b = [98], `ScopedDatabase::iter`
over A ranges from id 255 up to id 256, a range that is empty under
lexicographic order of little-endian ids, so it yields nothing and misses
(k, v_a). -/
theorem C7_isolation_bug :
    ScopedDatabase.put [] ⟨[], []⟩ (.named [97] 255) [107] [97]
      = .ok ([(255, [97])], ⟨[], [((255, [107]), [97])]⟩)
    ∧ ScopedDatabase.put [(255, [97])] ⟨[], [((255, [107]), [97])]⟩ .dflt [107] [98]
      = .ok ([(255, [97])], ⟨[([107], [98])], [((255, [107]), [97])]⟩)
    ∧ ScopedDatabase.get ⟨[([107], [98])], [((255, [107]), [97])]⟩ (.named [97] 255) [107]
      = some [97]
    ∧ ScopedDatabase.get ⟨[([107], [98])], [((255, [107]), [97])]⟩ .dflt [107] = some [98]
    ∧ ScopedDatabase.iter ⟨[([107], [98])], [((255, [107]), [97])]⟩ (.named [97] 255) = [] :=
  ⟨rfl, rfl, rfl, rfl, rfl⟩

/-- C4: `Scope::named` fails with EmptyScopeDisallowed exactly on the empty
name and otherwise returns the Named scope carrying the name and its
xxHash32 (fixed seed 0) id; the conversion from a string maps the empty
string to Default and never produces a named scope with an empty name. -/
theorem C4_scope_named (s : Bytes) :
    (Scope.mkNamed s = .error .emptyScopeDisallowed ↔ s = [])
    ∧ (s ≠ [] → Scope.mkNamed s = .ok (.named s (compute_xxhash s)))
    ∧ scopeFromStr [] = .dflt
    ∧ (∀ n h, scopeFromStr s = .named n h → n ≠ []) := by
  cases s with
  | nil =>
    refine ⟨by simp [Scope.mkNamed], by simp, rfl, ?_⟩
    intro n h hcontra
    simp [scopeFromStr] at hcontra
  | cons a t =>
    refine ⟨?_, fun _ => rfl, rfl, ?_⟩
    · simp [Scope.mkNamed]
    · intro n h heq
      simp [scopeFromStr, Scope.mkNamed] at heq
      intro hn
      rw [hn] at heq
      exact List.noConfusion heq.1

theorem C4_scope_named_witness :
    (([116, 101, 110, 97, 110, 116] : Bytes) ≠ []
      ∧ Scope.mkNamed [116, 101, 110, 97, 110, 116]
        = .ok (.named [116, 101, 110, 97, 110, 116]
            (compute_xxhash [116, 101, 110, 97, 110, 116]))) :=
  ⟨by decide, (C4_scope_named [116, 101, 110, 97, 110, 116]).2.1 (by decide)⟩

/-- C8: the stored composite key is exactly the 4 little-endian id bytes,
then 8 bytes holding the user-key length as a little-endian 64-bit unsigned
integer, then the user-key bytes, for a total length of 12 plus the key
length; the 12-byte header is present even for the empty user key. -/
theorem C8_encode_layout (hsh : Nat) (key : Bytes) :
    ScopedBytesCodec.encode hsh key = u32le hsh ++ u64le key.length ++ key
    ∧ (u32le hsh).length = 4
    ∧ (u64le key.length).length = 8
    ∧ (ScopedBytesCodec.encode hsh key).length = 12 + key.length
    ∧ (ScopedBytesCodec.encode hsh key).take 4 = u32le hsh
    ∧ ((ScopedBytesCodec.encode hsh key).drop 4).take 8 = u64le key.length
    ∧ (ScopedBytesCodec.encode hsh key).drop 12 = key
    ∧ ScopedBytesCodec.encode hsh [] = u32le hsh ++ u64le 0 :=
  ⟨rfl, rfl, rfl, encode_length hsh key, rfl, rfl, rfl, by
    simp [ScopedBytesCodec.encode]⟩

/-- C9 counterexample: the claim says two Named scopes with the same name but
different cached id values are equal; the derived equality of the Rust enum
compares the cached id field as well, so they are not equal. -/
theorem C9_eq_cex :
    Scope.eqb (.named [97] 1) (.named [97] 2) = false
    ∧ (Scope.named [97] 1 = Scope.named [97] 2 → False) :=
  ⟨rfl, by decide⟩

/-- C9 amended: two Scope values are equal exactly when they have the same
variant AND, for Named scopes, the same name and the same cached id; the
cached id participates in the comparison. -/
theorem C9_eq_amended (s t : Scope) : Scope.eqb s t = true ↔ s = t := by
  cases s <;> cases t <;> simp [Scope.eqb]

theorem C9_eq_amended_witness :
    Scope.eqb (.named [98] 3) (.named [98] 3) = true :=
  (C9_eq_amended (.named [98] 3) (.named [98] 3)).mpr rfl

/-- A successful `register_scope` of a Named scope leaves the scope present
in the registry and removes no entry: the core registry reasoning shared by
the clear operations of both container flavors. -/
theorem registerScope_ok_registry (reg : Registry) (n : Bytes) (hsh : Nat)
    (reg' : Registry)
    (hok : registerScope reg (.named n hsh) = .ok reg') :
    scopeExists reg' (.named n hsh) = true
    ∧ ∀ id nm, regGet reg id = some nm → regGet reg' id = some nm := by
  cases hreg : regGet reg hsh with
  | none =>
    simp only [registerScope, hreg, Except.ok.injEq] at hok
    subst hok
    refine ⟨by simp [scopeExists, regGet_regPut_self], ?_⟩
    intro id nm hid
    by_cases hne : id = hsh
    · rw [hne, hreg] at hid
      exact Option.noConfusion hid
    · rw [regGet_regPut_ne reg hsh n id hne]
      exact hid
  | some existing =>
    by_cases hne : existing = n
    · subst hne
      simp only [registerScope, hreg, ne_eq, not_true_eq_false, if_false,
        Except.ok.injEq] at hok
      subst hok
      refine ⟨?_, fun id nm hid => hid⟩
      show (regGet reg hsh).isSome = true
      rw [hreg]
      rfl
    · simp only [registerScope, hreg, ne_eq, hne, if_true] at hok
      exact Except.noConfusion hok

/-- A successful `ScopedBytesDatabase::clear` of a Named scope goes through
a successful `register_scope`, and the resulting registry is the registered
one. -/
theorem bytesClear_ok_registerScope (reg : Registry) (db : Container) (n : Bytes)
    (hsh : Nat) (reg' : Registry) (db' : Container)
    (hok : ScopedBytesDatabase.clear reg db (.named n hsh) = .ok (reg', db')) :
    registerScope reg (.named n hsh) = .ok reg' := by
  cases hr : registerScope reg (.named n hsh) with
  | error e =>
    simp only [ScopedBytesDatabase.clear, bind, Except.bind, hr] at hok
    exact Except.noConfusion hok
  | ok r0 =>
    simp only [ScopedBytesDatabase.clear, bind, Except.bind, hr, Except.ok.injEq,
      Prod.mk.injEq] at hok
    rw [hok.1]

/-- A successful `ScopedDatabase::clear` of a Named scope goes through a
successful `register_scope`, and the resulting registry is the registered
one. -/
theorem genericClear_ok_registerScope (reg : Registry) (db : Container) (n : Bytes)
    (hsh : Nat) (reg' : Registry) (db' : Container)
    (hok : ScopedDatabase.clear reg db (.named n hsh) = .ok (reg', db')) :
    registerScope reg (.named n hsh) = .ok reg' := by
  cases hr : registerScope reg (.named n hsh) with
  | error e =>
    simp only [ScopedDatabase.clear, bind, Except.bind, hr] at hok
    exact Except.noConfusion hok
  | ok r0 =>
    simp only [ScopedDatabase.clear, bind, Except.bind, hr, Except.ok.injEq,
      Prod.mk.injEq] at hok
    rw [hok.1]

/-- C10: for every container flavor, a successful `clear` on a Named scope
registers the scope in the global registry as a side effect, so
`scope_exists` is true afterwards even if the scope had never been written,
and `clear` never removes any registry entry.  Stated for both
`ScopedBytesDatabase::clear` and `ScopedDatabase::clear`. -/
theorem C10_clear_registers (reg : Registry) (db : Container) (n : Bytes) (hsh : Nat) :
    (∀ reg' db', ScopedBytesDatabase.clear reg db (.named n hsh) = .ok (reg', db') →
      scopeExists reg' (.named n hsh) = true
      ∧ ∀ id nm, regGet reg id = some nm → regGet reg' id = some nm)
    ∧ (∀ reg' db', ScopedDatabase.clear reg db (.named n hsh) = .ok (reg', db') →
      scopeExists reg' (.named n hsh) = true
      ∧ ∀ id nm, regGet reg id = some nm → regGet reg' id = some nm) :=
  ⟨fun reg' db' hok =>
    registerScope_ok_registry reg n hsh reg'
      (bytesClear_ok_registerScope reg db n hsh reg' db' hok),
   fun reg' db' hok =>
    registerScope_ok_registry reg n hsh reg'
      (genericClear_ok_registerScope reg db n hsh reg' db' hok)⟩

theorem C10_clear_registers_witness :
    (ScopedBytesDatabase.clear [] ⟨[], []⟩ (.named [97] 5) = .ok ([(5, [97])], ⟨[], []⟩)
      ∧ scopeExists [(5, [97])] (.named [97] 5) = true)
    ∧ (ScopedDatabase.clear [] ⟨[], []⟩ (.named [97] 5) = .ok ([(5, [97])], ⟨[], []⟩)
      ∧ scopeExists [(5, [97])] (.named [97] 5) = true) :=
  ⟨⟨rfl, ((C10_clear_registers [] ⟨[], []⟩ [97] 5).1 [(5, [97])] ⟨[], []⟩ rfl).1⟩,
   ⟨rfl, ((C10_clear_registers [] ⟨[], []⟩ [97] 5).2 [(5, [97])] ⟨[], []⟩ rfl).1⟩⟩

/-- C5 counterexample: the claim says decode returns an Encoding error for
every buffer of at least 12 bytes whose total length is shorter than 12 plus
the declared length.  The 12-byte buffer of 0xFF declares key length
2^64 - 1, so its total length is far below 12 plus the declared length, yet
decode does not return an error: the usize computation of 12 plus the
declared length overflows and the Rust code aborts (debug: overflow abort;
release: the wrapped end index 11 is below the key start 12 and the slice
aborts). -/
theorem C5_decode_overflow_cex :
    12 ≤ (List.replicate 12 255 : Bytes).length
    ∧ (List.replicate 12 255 : Bytes).length
        < 12 + leNat (((List.replicate 12 255 : Bytes).drop 4).take 8)
    ∧ ScopedBytesCodec.decode (List.replicate 12 255) = .fault
    ∧ ∀ m, ScopedBytesCodec.decode (List.replicate 12 255) ≠ .err (.encoding m) := by
  refine ⟨by decide, by decide, rfl, ?_⟩
  intro m hm
  have h2 : ScopedBytesCodec.DecodeOutcome.fault
      = ScopedBytesCodec.DecodeOutcome.err (.encoding m) := hm
  exact ScopedBytesCodec.DecodeOutcome.noConfusion h2

/-- C5 amended: decode(encode(id, key)) = (id, key) for every 32-bit id and
every key (Rust slice lengths satisfy length + 12 < 2^64); decode returns
the Encoding error for every buffer shorter than 12 bytes; and it returns
the Encoding error for every buffer of at least 12 bytes shorter than 12
plus the declared length, provided 12 plus the declared length does not
overflow a 64-bit usize (otherwise the code aborts instead, see the
counterexample). -/
theorem C5_codec_amended :
    (∀ hsh key, hsh < U32MOD → (key : Bytes).length + 12 < U64MOD →
      ScopedBytesCodec.decode (ScopedBytesCodec.encode hsh key) = .ok hsh key)
    ∧ (∀ bs : Bytes, bs.length < 12 →
      ScopedBytesCodec.decode bs = .err (.encoding msgTooShort))
    ∧ (∀ bs : Bytes, 12 ≤ bs.length →
      bs.length < 12 + leNat ((bs.drop 4).take 8) →
      12 + leNat ((bs.drop 4).take 8) < U64MOD →
      ScopedBytesCodec.decode bs = .err (.encoding msgKeyShort)) := by
  refine ⟨?_, ?_, ?_⟩
  · intro hsh key h1 h2
    have e4 : (ScopedBytesCodec.encode hsh key).take 4 = u32le hsh := rfl
    have e8 : ((ScopedBytesCodec.encode hsh key).drop 4).take 8 = u64le key.length := rfl
    have e12 : (ScopedBytesCodec.encode hsh key).drop 12 = key := rfl
    have hlen := encode_length hsh key
    have hmod : (12 + key.length) % U64MOD = 12 + key.length :=
      Nat.mod_eq_of_lt (by omega)
    simp only [ScopedBytesCodec.decode, e4, e8, e12, hlen,
      leNat_u32le h1, leNat_u64le (show key.length < U64MOD by omega), hmod]
    rw [if_neg (by omega), if_neg (by omega), if_neg (by omega)]
    simp
  · intro bs hshort
    simp only [ScopedBytesCodec.decode]
    rw [if_pos hshort]
  · intro bs hge hlt hnov
    have hmod : (12 + leNat ((bs.drop 4).take 8)) % U64MOD
        = 12 + leNat ((bs.drop 4).take 8) := Nat.mod_eq_of_lt hnov
    simp only [ScopedBytesCodec.decode, hmod]
    rw [if_neg (by omega), if_pos (by omega)]

theorem C5_codec_amended_witness :
    (305419896 < U32MOD
      ∧ ([116, 101, 115, 116, 95, 107, 101, 121] : Bytes).length + 12 < U64MOD
      ∧ ScopedBytesCodec.decode
          (ScopedBytesCodec.encode 305419896 [116, 101, 115, 116, 95, 107, 101, 121])
        = .ok 305419896 [116, 101, 115, 116, 95, 107, 101, 121])
    ∧ (([0, 1, 2] : Bytes).length < 12
      ∧ ScopedBytesCodec.decode [0, 1, 2] = .err (.encoding msgTooShort))
    ∧ (12 ≤ ([0, 0, 0, 0, 5, 0, 0, 0, 0, 0, 0, 0, 1, 2] : Bytes).length
      ∧ ([0, 0, 0, 0, 5, 0, 0, 0, 0, 0, 0, 0, 1, 2] : Bytes).length
          < 12 + leNat ((([0, 0, 0, 0, 5, 0, 0, 0, 0, 0, 0, 0, 1, 2] : Bytes).drop 4).take 8)
      ∧ ScopedBytesCodec.decode [0, 0, 0, 0, 5, 0, 0, 0, 0, 0, 0, 0, 1, 2]
        = .err (.encoding msgKeyShort)) :=
  ⟨⟨by decide, by decide,
      C5_codec_amended.1 305419896 [116, 101, 115, 116, 95, 107, 101, 121]
        (by decide) (by decide)⟩,
    ⟨by decide, C5_codec_amended.2.1 [0, 1, 2] (by decide)⟩,
    ⟨by decide, by decide,
      C5_codec_amended.2.2 [0, 0, 0, 0, 5, 0, 0, 0, 0, 0, 0, 0, 1, 2]
        (by decide) (by decide) (by decide)⟩⟩

/-- C6: registering a Named scope whose id is mapped to a different name
fails with InvalidInput whose message contains both colliding names;
registering with the id mapped to the same name succeeds without change;
registering with the id absent inserts the entry; registering the Default
scope is a no-op. -/
theorem C6_register_scope (r : Registry) (n : Bytes) (h : Nat) :
    (∀ existing, regGet r h = some existing → existing ≠ n →
      registerScope r (.named n h) = .error (.invalidInput (collisionMsg n existing))
      ∧ (∃ pre post, collisionMsg n existing = pre ++ n ++ post)
      ∧ (∃ pre post, collisionMsg n existing = pre ++ existing ++ post))
    ∧ (regGet r h = some n → registerScope r (.named n h) = .ok r)
    ∧ (regGet r h = none → registerScope r (.named n h) = .ok (regPut r h n))
    ∧ registerScope r .dflt = .ok r := by
  refine ⟨?_, ?_, ?_, rfl⟩
  · intro existing hget hne
    refine ⟨by simp [registerScope, hget, hne], ?_, ?_⟩
    · exact ⟨ascii "Hash collision detected between " ++ [39],
        [39, 32, 97, 110, 100, 32, 39] ++ existing ++ [39],
        by simp [collisionMsg]⟩
    · exact ⟨ascii "Hash collision detected between " ++ [39] ++ n
          ++ [39, 32, 97, 110, 100, 32, 39], [39],
        by simp [collisionMsg]⟩
  · intro hget
    simp [registerScope, hget]
  · intro hget
    simp [registerScope, hget]

theorem C6_register_scope_witness :
    (regGet [(5, [97])] 5 = some [97]
      ∧ ([97] : Bytes) ≠ [98]
      ∧ registerScope [(5, [97])] (.named [98] 5)
        = .error (.invalidInput (collisionMsg [98] [97])))
    ∧ (regGet [(5, [97])] 5 = some [97]
      ∧ registerScope [(5, [97])] (.named [97] 5) = .ok [(5, [97])])
    ∧ (regGet [] 7 = none
      ∧ registerScope [] (.named [99] 7) = .ok (regPut [] 7 [99])) :=
  ⟨⟨rfl, by decide, ((C6_register_scope [(5, [97])] [98] 5).1 [97] rfl (by decide)).1⟩,
    ⟨rfl, (C6_register_scope [(5, [97])] [97] 5).2.1 rfl⟩,
    ⟨rfl, (C6_register_scope [] [99] 7).2.2.1 rfl⟩⟩
